import Mathlib

/-!
# Host isolation: connection observer, packet classifier, event dispatch

A shallow embedding of

* `src/GPL/HostIsolation/KprobeConnectHook/kprobe_connect_hook.bpf.c`
  (the two BPF hash maps, `add_IP_to_allowlist`, `enter_tcp_connect`),
* the traffic-control classifier exercised by
  `src/GPL/HostIsolation/TcFilter/TcFilterTest.cpp`,
* `ring_buf_cb` of `src/non-GPL/LibEbpfEvents/LibEbpfEvents.c`.

Machine integers are natural numbers reduced modulo `2^w` where the C code
stores them into a `w`-bit object.  The kernel helpers
`bpf_map_lookup_elem`, `bpf_map_update_elem` and `bpf_probe_read` are
modelled by their documented contract.
-/

namespace HostIsolation

/-! ## BPF hash maps -/

/-- Contents of one `BPF_MAP_TYPE_HASH` map with 4-byte keys and 4-byte
values: the (key, value) slots currently in use.  The entry count of the map
is the length of the list. -/
abbrev bpf_map := List (Nat × Nat)

/-- Update flag: create a new element or update an existing one. -/
def BPF_ANY : Nat := 0
/-- Update flag: create a new element only if it did not exist. -/
def BPF_NOEXIST : Nat := 1
/-- Update flag: update an existing element only. -/
def BPF_EXIST : Nat := 2

def ENOENT : Int := 2
def E2BIG : Int := 7
def EFAULT : Int := 14
def EEXIST : Int := 17
def EINVAL : Int := 22

/-- Declared capacity of `allowed_IPs` (`__uint(max_entries, 512)`). -/
def allowed_IPs_max_entries : Nat := 512
/-- Declared capacity of `allowed_pids` (`__uint(max_entries, 128)`). -/
def allowed_pids_max_entries : Nat := 128

/-- Helper `bpf_map_lookup_elem`: the value stored under `key`, or `none`
(the C helper's `NULL`) when the key is absent. -/
def bpf_map_lookup_elem : bpf_map → Nat → Option Nat
  | [], _ => none
  | (k, v) :: rest, key => if k = key then some v else bpf_map_lookup_elem rest key

/-- Overwrite the value of the slot holding `key`, leaving every other slot
as it is. -/
def bpf_map_replace : bpf_map → Nat → Nat → bpf_map
  | [], _, _ => []
  | (k, v) :: rest, key, value =>
    if k = key then (k, value) :: rest else (k, v) :: bpf_map_replace rest key value

/-- Helper `bpf_map_update_elem` on a hash map of capacity `max_entries`:
returns the helper's return value and the new contents.  An existing key is
overwritten (also when the map is full); a new key is added only while the
entry count is below `max_entries`, otherwise the helper fails with `-E2BIG`
and the map is left as it was. -/
def bpf_map_update_elem (max_entries : Nat) (m : bpf_map) (key value flags : Nat) :
    Int × bpf_map :=
  if flags > BPF_EXIST then (-EINVAL, m)
  else
    match bpf_map_lookup_elem m key with
    | some _ =>
      if flags = BPF_NOEXIST then (-EEXIST, m) else (0, bpf_map_replace m key value)
    | none =>
      if flags = BPF_EXIST then (-ENOENT, m)
      else if max_entries ≤ m.length then (-E2BIG, m)
      else (0, (key, value) :: m)

/-- The spec's `contains(set, key)`: a lookup of `key` succeeds. -/
def contains (m : bpf_map) (key : Nat) : Bool :=
  (bpf_map_lookup_elem m key).isSome

/-- Helper `bpf_probe_read(&dst, 4, src)` for a 4-byte destination.  `src` is
what the four bytes at the source address hold, `none` when that memory
cannot be read.  Returns the helper's return value and the new content of the
destination; on failure the helper zeroes the destination. -/
def bpf_probe_read (_dst : Nat) (src : Option Nat) : Int × Nat :=
  match src with
  | some v => (0, v % 2 ^ 32)
  | none => (-EFAULT, 0)

/-! ## The connection observer -/

/-- The two maps of `kprobe_connect_hook.bpf.c`. -/
structure Maps where
  allowed_IPs : bpf_map
  allowed_pids : bpf_map
  deriving DecidableEq, Repr

/-- Function `add_IP_to_allowlist`: the return value `rv` of the update is
only looked at under `DEBUG_TRACE_PRINTK`, which is not defined. -/
def add_IP_to_allowlist (daddr : Nat) (m : Maps) : Maps :=
  let val : Nat := 1
  let rv := bpf_map_update_elem allowed_IPs_max_entries m.allowed_IPs daddr val BPF_ANY
  { m with allowed_IPs := rv.2 }

/-- The statement `__u32 pid = pid_tgid >> 32;` for the `__u64` value
`pid_tgid`: the upper 32 bits, the process (thread-group) identifier. -/
def current_pid (pid_tgid : Nat) : Nat :=
  ((pid_tgid % 2 ^ 64) >>> 32) % 2 ^ 32

/-- Function `enter_tcp_connect`.  `pid_tgid` is what
`bpf_get_current_pid_tgid()` returns, `uaddr` what the four bytes at
`&sin->sin_addr.s_addr` hold (`none`: unreadable).  Returns the function's
return value and the maps after the call. -/
def enter_tcp_connect (pid_tgid : Nat) (uaddr : Option Nat) (m : Maps) : Int × Maps :=
  let pid := current_pid pid_tgid
  let daddr : Nat := 0
  let daddr := (bpf_probe_read daddr uaddr).2
  let elem := bpf_map_lookup_elem m.allowed_pids pid
  match elem with
  | some _ => (0, add_IP_to_allowlist daddr m)
  | none => (0, m)

/-- The keys present in a map. -/
def keys (m : bpf_map) : List Nat :=
  m.map Prod.fst

/-- The observer invoked `n` times in a row with the same `pid_tgid` and the
same destination. -/
def enter_tcp_connect_n (pid_tgid : Nat) (uaddr : Option Nat) : Nat → Maps → Maps
  | 0, m => m
  | n + 1, m => enter_tcp_connect_n pid_tgid uaddr n (enter_tcp_connect pid_tgid uaddr m).2

/-- A sequence of observer invocations, each given by its `pid_tgid` and its
destination read outcome, run from left to right. -/
def run_observer : List (Nat × Option Nat) → Maps → Maps
  | [], m => m
  | (pid_tgid, uaddr) :: rest, m => run_observer rest (enter_tcp_connect pid_tgid uaddr m).2

/-- A full learned-address table: the 512 addresses `1, …, 512`, each stored
with the value 1. -/
def full_table : bpf_map :=
  (List.range 512).map (fun i => (i + 1, 1))

/-! ## The packet classifier -/

/-- Link-layer protocol numbers of `linux/if_ether.h` used by the tests. -/
def ETH_P_LOOP : Nat := 0x0060
def ETH_P_IP : Nat := 0x0800
def ETH_P_ARP : Nat := 0x0806
/-- Size of `struct ethhdr`. -/
def ETH_HLEN : Nat := 14
/-- Size of `struct iphdr` (an IPv4 header without options). -/
def IPHDR_LEN : Nat := 20
/-- More-fragments flag and fragment-offset mask of the `frag_off` field. -/
def IP_MF : Nat := 0x2000
def IP_OFFSET : Nat := 0x1FFF
/-- Traffic-control return codes: the tests expect `(unsigned int)-1` for a
passed packet and `2` for a dropped one. -/
def TC_ACT_UNSPEC : Int := -1
def TC_ACT_SHOT : Int := 2

/-- The byte of the captured packet at offset `off` (0 past the end; the
parsers below check the length before they read). -/
def byte_at (data : List Nat) (off : Nat) : Nat :=
  data.getD off 0 % 256

/-- The fields of `struct ethhdr` the classifier looks at; `h_proto` is the
protocol number the two network-order bytes encode. -/
structure ethhdr where
  h_proto : Nat
  deriving DecidableEq, Repr

/-- The fields of `struct iphdr` the classifier looks at.  `frag_off` is the
value the two network-order bytes encode; `daddr` is the 32-bit object holding
the four network-order address bytes, the key format of `allowed_IPs`. -/
structure iphdr where
  version : Nat
  ihl : Nat
  frag_off : Nat
  daddr : Nat
  deriving DecidableEq, Repr

/-- Modelled from the spec: parsing of the link-layer header by the packet
classifier (`TcFilter.bpf.c` is not among the sources).  A packet too short to
hold a `struct ethhdr` has no link-layer header. -/
def parse_ethhdr (data : List Nat) : Option ethhdr :=
  if data.length < ETH_HLEN then none
  else some { h_proto := byte_at data 12 * 256 + byte_at data 13 }

/-- Modelled from the spec: parsing of the IPv4 header that follows the
link-layer header by the packet classifier (`TcFilter.bpf.c` is not among the
sources).  A packet too short to hold a `struct iphdr` after the link-layer
header has no IPv4 header. -/
def parse_iphdr (data : List Nat) : Option iphdr :=
  if data.length < ETH_HLEN + IPHDR_LEN then none
  else some {
    version := byte_at data 14 / 16
    ihl := byte_at data 14 % 16
    frag_off := byte_at data 20 * 256 + byte_at data 21
    daddr := byte_at data 30 + byte_at data 31 * 2 ^ 8 + byte_at data 32 * 2 ^ 16
      + byte_at data 33 * 2 ^ 24 }

/-- The header-length validation of step 4: `ihl` is within the bounds of a
well-formed IPv4 header and the declared header lies within the captured
packet. -/
def valid_ihl (data : List Nat) (iph : iphdr) : Bool :=
  decide (5 ≤ iph.ihl) && decide (ETH_HLEN + iph.ihl * 4 ≤ data.length)

/-- The fragment test of step 5: non-zero fragment offset or more-fragments
flag set. -/
def is_fragment (iph : iphdr) : Bool :=
  decide (iph.frag_off &&& IP_OFFSET ≠ 0) || decide (iph.frag_off &&& IP_MF ≠ 0)

/-- Modelled from the spec: the packet classifier, program `classifier` of
`TcFilter.bpf.c`, which is not among the sources (only its test
`TcFilterTest.cpp` is).  The steps are those of the spec's section 4.2, in its
order; unreadable (absent) header bytes give the drop verdict; the verdicts
are encoded as the tests expect them.  `allowed_IPs` is the LearnedAddress
table and `data` the captured packet bytes. -/
def classifier (allowed_IPs : bpf_map) (data : List Nat) : Int :=
  match parse_ethhdr data with
  | none => TC_ACT_SHOT
  | some eth =>
    if eth.h_proto = ETH_P_ARP then TC_ACT_UNSPEC
    else if eth.h_proto ≠ ETH_P_IP then TC_ACT_SHOT
    else
      match parse_iphdr data with
      | none => TC_ACT_SHOT
      | some iph =>
        if iph.version ≠ 4 then TC_ACT_SHOT
        else if !valid_ihl data iph then TC_ACT_SHOT
        else if is_fragment iph then TC_ACT_SHOT
        else
          match bpf_map_lookup_elem allowed_IPs iph.daddr with
          | some _ => TC_ACT_UNSPEC
          | none => TC_ACT_SHOT

/-- The bytes of the tests' `struct packet_v4` (Ethernet, IPv4 and TCP headers,
54 bytes) with the given protocol bytes, first IPv4 byte (version and header
length) and `frag_off` bytes, everything else zero. -/
def packet_v4 (proto_hi proto_lo vihl frag_hi frag_lo : Nat) : List Nat :=
  List.replicate 12 0 ++ [proto_hi, proto_lo] ++ [vihl] ++ List.replicate 5 0
    ++ [frag_hi, frag_lo] ++ List.replicate 32 0

/-- Packet of `TestAllowArpPacket`. -/
def pkt_arp : List Nat := packet_v4 0x08 0x06 0 0 0
/-- Packet of `TestDropUnsupportedPackets`. -/
def pkt_loop : List Nat := packet_v4 0x00 0x60 0 0 0
/-- Packet of `TestDropFragmentedPacket` (`version = 4`, `ihl = 5`,
`frag_off |= 65343`, which a little-endian host stores as bytes `3F FF`). -/
def pkt_fragment : List Nat := packet_v4 0x08 0x00 0x45 0x3F 0xFF

/-! ## Event dispatch -/

/-- Modelled from the spec: the typed event record header
`struct ebpf_event_header`, declared in `LibEbpfEvents.h`, which is not among
the sources.  `type` is the value of the field `evt->type` as the `&` with the
`uint64_t` mask sees it, that is, converted to 64 bits. -/
structure ebpf_event_header where
  ts : Nat
  type : Nat
  deriving DecidableEq, Repr

/-- Struct `ring_buf_cb_ctx`: the saved handler and the 64-bit events mask.
The handler (`ebpf_event_handler_fn`) returns an `int` and may act on the
consumer's state `σ`. -/
structure ring_buf_cb_ctx (σ : Type) where
  cb : ebpf_event_header → σ → Int × σ
  events : Nat

/-- Function `ring_buf_cb`. -/
def ring_buf_cb {σ : Type} (ctx : ring_buf_cb_ctx σ) (data : ebpf_event_header) (_size : Nat)
    (s : σ) : Int × σ :=
  let cb_ctx := ctx
  let cb := cb_ctx.cb
  let evt := data
  if (evt.type % 2 ^ 64) &&& (cb_ctx.events % 2 ^ 64) ≠ 0 then cb evt s
  else (0, s)

/-- A handler instrumented with an invocation counter: every call adds one to
the first component of the state. -/
def counted {σ : Type} (cb : ebpf_event_header → σ → Int × σ) :
    ebpf_event_header → Nat × σ → Int × (Nat × σ) :=
  fun evt s => ((cb evt s.2).1, (s.1 + 1, (cb evt s.2).2))

/-! ## Lemmas on the hash-map model -/

theorem lookup_isSome_iff_mem_keys (m : bpf_map) (key : Nat) :
    (bpf_map_lookup_elem m key).isSome = true ↔ key ∈ keys m := by
  induction m with
  | nil => simp [bpf_map_lookup_elem, keys]
  | cons e rest ih =>
    obtain ⟨k, v⟩ := e
    by_cases h : k = key
    · simp [bpf_map_lookup_elem, keys, h]
    · have h2 : ¬ key = k := fun e => h e.symm
      simpa [bpf_map_lookup_elem, keys, h, h2] using ih

theorem contains_iff_mem_keys (m : bpf_map) (key : Nat) :
    contains m key = true ↔ key ∈ keys m :=
  lookup_isSome_iff_mem_keys m key

theorem lookup_eq_none_iff (m : bpf_map) (key : Nat) :
    bpf_map_lookup_elem m key = none ↔ key ∉ keys m := by
  rw [← lookup_isSome_iff_mem_keys]
  cases bpf_map_lookup_elem m key <;> simp

theorem keys_replace (m : bpf_map) (key value : Nat) :
    keys (bpf_map_replace m key value) = keys m := by
  induction m with
  | nil => rfl
  | cons e rest ih =>
    obtain ⟨k, v⟩ := e
    by_cases h : k = key
    · simp [bpf_map_replace, keys, h]
    · simp only [keys] at ih
      simp [bpf_map_replace, keys, h, ih]

theorem length_replace (m : bpf_map) (key value : Nat) :
    (bpf_map_replace m key value).length = m.length := by
  have h := congrArg List.length (keys_replace m key value)
  simpa [keys] using h

theorem lookup_replace (m : bpf_map) (key value a : Nat) :
    bpf_map_lookup_elem (bpf_map_replace m key value) a =
      if a = key then (bpf_map_lookup_elem m key).map (fun _ => value)
      else bpf_map_lookup_elem m a := by
  induction m with
  | nil => simp [bpf_map_replace, bpf_map_lookup_elem]
  | cons e rest ih =>
    obtain ⟨k, v⟩ := e
    by_cases h : k = key
    · subst h
      by_cases ha : a = k
      · subst ha
        simp [bpf_map_replace, bpf_map_lookup_elem]
      · have ha2 : ¬ k = a := fun e => ha e.symm
        simp [bpf_map_replace, bpf_map_lookup_elem, ha, ha2]
    · by_cases ha : a = key
      · subst ha
        simp [bpf_map_replace, bpf_map_lookup_elem, h, ih]
      · by_cases hk : k = a
        · simp [bpf_map_replace, bpf_map_lookup_elem, h, hk, ha]
        · simp [bpf_map_replace, bpf_map_lookup_elem, h, hk, ha, ih]

theorem replace_replace (m : bpf_map) (key value : Nat) :
    bpf_map_replace (bpf_map_replace m key value) key value = bpf_map_replace m key value := by
  induction m with
  | nil => rfl
  | cons e rest ih =>
    obtain ⟨k, v⟩ := e
    by_cases h : k = key
    · simp [bpf_map_replace, h]
    · simp [bpf_map_replace, h, ih]

/-- What `bpf_map_update_elem` does under `BPF_ANY`, by cases. -/
theorem update_any (max_entries : Nat) (m : bpf_map) (key value : Nat) :
    bpf_map_update_elem max_entries m key value BPF_ANY =
      if key ∈ keys m then (0, bpf_map_replace m key value)
      else if max_entries ≤ m.length then (-E2BIG, m)
      else (0, (key, value) :: m) := by
  unfold bpf_map_update_elem
  by_cases h : key ∈ keys m
  · obtain ⟨v, hv⟩ := Option.isSome_iff_exists.mp ((lookup_isSome_iff_mem_keys m key).mpr h)
    simp [hv, h, BPF_ANY, BPF_EXIST, BPF_NOEXIST]
  · have hn := (lookup_eq_none_iff m key).mpr h
    simp [hn, h, BPF_ANY, BPF_EXIST, BPF_NOEXIST]

theorem keys_subset_update_any (max_entries : Nat) (m : bpf_map) (key value a : Nat)
    (h : a ∈ keys m) : a ∈ keys (bpf_map_update_elem max_entries m key value BPF_ANY).2 := by
  rw [update_any]
  split_ifs
  · simpa [keys_replace] using h
  · exact h
  · simp only [keys, List.map_cons, List.mem_cons]
    exact Or.inr h

theorem length_update_any (max_entries : Nat) (m : bpf_map) (key value : Nat)
    (h : m.length ≤ max_entries) :
    (bpf_map_update_elem max_entries m key value BPF_ANY).2.length ≤ max_entries := by
  rw [update_any]
  split_ifs with h1 h2
  · simpa [length_replace] using h
  · exact h
  · simp only [List.length_cons]
    omega

theorem update_any_idem (max_entries : Nat) (m : bpf_map) (key value : Nat) :
    (bpf_map_update_elem max_entries
        (bpf_map_update_elem max_entries m key value BPF_ANY).2 key value BPF_ANY).2 =
      (bpf_map_update_elem max_entries m key value BPF_ANY).2 := by
  rw [update_any max_entries m]
  split_ifs with h1 h2
  · rw [update_any]
    simp [keys_replace, h1, replace_replace]
  · rw [update_any]
    simp [h1, h2]
  · rw [update_any]
    simp [keys, bpf_map_replace]

theorem lookup_update_any_ne (max_entries : Nat) (m : bpf_map) (key value a : Nat)
    (h : a ≠ key) :
    bpf_map_lookup_elem (bpf_map_update_elem max_entries m key value BPF_ANY).2 a =
      bpf_map_lookup_elem m a := by
  rw [update_any]
  split_ifs
  · simp [lookup_replace, h]
  · rfl
  · have h2 : ¬ key = a := fun e => h e.symm
    simp [bpf_map_lookup_elem, h2]

/-- Well-formed contents (no key held twice) stay well-formed under an update:
on such contents the length of the list is the number of distinct keys. -/
theorem nodup_keys_update_any (max_entries : Nat) (m : bpf_map) (key value : Nat)
    (h : (keys m).Nodup) :
    (keys (bpf_map_update_elem max_entries m key value BPF_ANY).2).Nodup := by
  rw [update_any]
  split_ifs with h1 h2
  · simpa [keys_replace] using h
  · exact h
  · simp only [keys, List.map_cons, List.nodup_cons]
    exact ⟨h1, h⟩

/-! ## Lemmas on the connection observer -/

theorem current_pid_lt (pid_tgid : Nat) : current_pid pid_tgid < 2 ^ 32 :=
  Nat.mod_lt _ (by norm_num)

theorem current_pid_compose (pid tid : Nat) (hpid : pid < 2 ^ 32) (htid : tid < 2 ^ 32) :
    current_pid (pid * 2 ^ 32 + tid) = pid := by
  unfold current_pid
  rw [Nat.shiftRight_eq_div_pow]
  norm_num at hpid htid ⊢
  omega

theorem enter_not_allowed (pid_tgid : Nat) (uaddr : Option Nat) (m : Maps)
    (h : current_pid pid_tgid ∉ keys m.allowed_pids) :
    enter_tcp_connect pid_tgid uaddr m = (0, m) := by
  have hn := (lookup_eq_none_iff m.allowed_pids _).mpr h
  simp [enter_tcp_connect, hn]

theorem enter_allowed (pid_tgid : Nat) (uaddr : Option Nat) (m : Maps)
    (h : current_pid pid_tgid ∈ keys m.allowed_pids) :
    enter_tcp_connect pid_tgid uaddr m =
      (0, add_IP_to_allowlist (bpf_probe_read 0 uaddr).2 m) := by
  obtain ⟨v, hv⟩ :=
    Option.isSome_iff_exists.mp ((lookup_isSome_iff_mem_keys m.allowed_pids _).mpr h)
  simp [enter_tcp_connect, hv]

theorem enter_fst (pid_tgid : Nat) (uaddr : Option Nat) (m : Maps) :
    (enter_tcp_connect pid_tgid uaddr m).1 = 0 := by
  by_cases h : current_pid pid_tgid ∈ keys m.allowed_pids
  · rw [enter_allowed _ _ _ h]
  · rw [enter_not_allowed _ _ _ h]

theorem enter_allowed_pids (pid_tgid : Nat) (uaddr : Option Nat) (m : Maps) :
    (enter_tcp_connect pid_tgid uaddr m).2.allowed_pids = m.allowed_pids := by
  by_cases h : current_pid pid_tgid ∈ keys m.allowed_pids
  · rw [enter_allowed _ _ _ h]
    rfl
  · rw [enter_not_allowed _ _ _ h]

theorem enter_keys_mono (pid_tgid : Nat) (uaddr : Option Nat) (m : Maps) (a : Nat)
    (ha : a ∈ keys m.allowed_IPs) :
    a ∈ keys (enter_tcp_connect pid_tgid uaddr m).2.allowed_IPs := by
  by_cases h : current_pid pid_tgid ∈ keys m.allowed_pids
  · rw [enter_allowed _ _ _ h]
    exact keys_subset_update_any _ _ _ _ _ ha
  · rw [enter_not_allowed _ _ _ h]
    exact ha

theorem enter_length_le (pid_tgid : Nat) (uaddr : Option Nat) (m : Maps)
    (hm : m.allowed_IPs.length ≤ 512) :
    (enter_tcp_connect pid_tgid uaddr m).2.allowed_IPs.length ≤ 512 := by
  by_cases h : current_pid pid_tgid ∈ keys m.allowed_pids
  · rw [enter_allowed _ _ _ h]
    exact length_update_any allowed_IPs_max_entries _ _ _ hm
  · rw [enter_not_allowed _ _ _ h]
    exact hm

theorem enter_idem (pid_tgid : Nat) (uaddr : Option Nat) (m : Maps) :
    (enter_tcp_connect pid_tgid uaddr (enter_tcp_connect pid_tgid uaddr m).2).2 =
      (enter_tcp_connect pid_tgid uaddr m).2 := by
  by_cases h : current_pid pid_tgid ∈ keys m.allowed_pids
  · have h2 : current_pid pid_tgid ∈ keys (enter_tcp_connect pid_tgid uaddr m).2.allowed_pids := by
      rw [enter_allowed_pids]
      exact h
    rw [enter_allowed _ _ _ h2, enter_allowed _ _ _ h]
    simp only [add_IP_to_allowlist]
    rw [update_any_idem]
  · rw [enter_not_allowed _ _ _ h, enter_not_allowed _ _ _ h]

theorem enter_n_succ (pid_tgid : Nat) (uaddr : Option Nat) (n : Nat) (m : Maps) :
    enter_tcp_connect_n pid_tgid uaddr (n + 1) m = (enter_tcp_connect pid_tgid uaddr m).2 := by
  induction n generalizing m with
  | zero => rfl
  | succ k ih =>
    show enter_tcp_connect_n pid_tgid uaddr (k + 1) (enter_tcp_connect pid_tgid uaddr m).2 = _
    rw [ih, enter_idem]

theorem run_observer_keys_mono (calls : List (Nat × Option Nat)) (m : Maps) (a : Nat)
    (ha : a ∈ keys m.allowed_IPs) : a ∈ keys (run_observer calls m).allowed_IPs := by
  induction calls generalizing m with
  | nil => exact ha
  | cons c rest ih =>
    obtain ⟨p, u⟩ := c
    exact ih _ (enter_keys_mono p u m a ha)

theorem run_observer_length_le (calls : List (Nat × Option Nat)) (m : Maps)
    (hm : m.allowed_IPs.length ≤ 512) : (run_observer calls m).allowed_IPs.length ≤ 512 := by
  induction calls generalizing m with
  | nil => exact hm
  | cons c rest ih =>
    obtain ⟨p, u⟩ := c
    exact ih _ (enter_length_le p u m hm)

theorem mem_keys_update_any (max_entries : Nat) (m : bpf_map) (key value : Nat)
    (h : key ∈ keys m ∨ m.length < max_entries) :
    key ∈ keys (bpf_map_update_elem max_entries m key value BPF_ANY).2 := by
  rw [update_any]
  split_ifs with h1 h2
  · simpa [keys_replace] using h1
  · rcases h with h | h
    · exact absurd h h1
    · omega
  · simp [keys]

theorem add_IP_full (daddr : Nat) (m : Maps) (hfull : m.allowed_IPs.length = 512)
    (hnew : daddr ∉ keys m.allowed_IPs) : add_IP_to_allowlist daddr m = m := by
  simp only [add_IP_to_allowlist]
  rw [update_any]
  simp [hnew, hfull, allowed_IPs_max_entries]

/-! ## The connection observer: claims -/

/-- Claim C1: if the process identifier (the upper 32 bits of `pid_tgid`) is
not a key of `allowed_pids`, then for every state of the two tables and every
destination read outcome (readable or not) the `allowed_IPs` table after
`enter_tcp_connect` is identical to the table before the call. -/
theorem C1_not_allowed_never_mutates (m : Maps) (pid_tgid : Nat) (uaddr : Option Nat)
    (h : current_pid pid_tgid ∉ keys m.allowed_pids) :
    (enter_tcp_connect pid_tgid uaddr m).2.allowed_IPs = m.allowed_IPs := by
  rw [enter_not_allowed pid_tgid uaddr m h]

/-- Witness of C1: process 8 is not allow-listed (process 7 is), it connects
to address 9, and the learned table `[(5, 1)]` stays as it is. -/
theorem C1_not_allowed_never_mutates_witness :
    current_pid (8 * 2 ^ 32 + 1) ∉ keys [(7, 1)] ∧
      (enter_tcp_connect (8 * 2 ^ 32 + 1) (some 9) ⟨[(5, 1)], [(7, 1)]⟩).2.allowed_IPs =
        [(5, 1)] :=
  ⟨by decide,
    C1_not_allowed_never_mutates ⟨[(5, 1)], [(7, 1)]⟩ (8 * 2 ^ 32 + 1) (some 9) (by decide)⟩

/-- Claim C2: for an allow-listed process (upper 32 bits of `pid_tgid` a key
of `allowed_pids`) and a readable destination address `A`, if `allowed_IPs`
already contains `A` or holds fewer than 512 entries, then after
`enter_tcp_connect` a lookup of `A` in `allowed_IPs` succeeds; and replacing
the lower 32 bits of `pid_tgid` (the thread id) by any other value gives the
same outcome. -/
theorem C2_allowed_process_learns (m : Maps) (pid_tgid A : Nat) (hA : A < 2 ^ 32)
    (hallowed : current_pid pid_tgid ∈ keys m.allowed_pids)
    (hroom : contains m.allowed_IPs A = true ∨ m.allowed_IPs.length < 512) :
    contains (enter_tcp_connect pid_tgid (some A) m).2.allowed_IPs A = true ∧
      ∀ tid, tid < 2 ^ 32 →
        enter_tcp_connect (current_pid pid_tgid * 2 ^ 32 + tid) (some A) m =
          enter_tcp_connect pid_tgid (some A) m := by
  constructor
  · rw [enter_allowed pid_tgid (some A) m hallowed, contains_iff_mem_keys]
    have hd : (bpf_probe_read 0 (some A)).2 = A := by
      simp only [bpf_probe_read]
      exact Nat.mod_eq_of_lt hA
    rw [hd]
    apply mem_keys_update_any
    rcases hroom with h | h
    · exact Or.inl ((contains_iff_mem_keys _ _).mp h)
    · exact Or.inr h
  · intro tid htid
    have hp : current_pid (current_pid pid_tgid * 2 ^ 32 + tid) = current_pid pid_tgid :=
      current_pid_compose _ _ (current_pid_lt pid_tgid) htid
    have hallowed2 :
        current_pid (current_pid pid_tgid * 2 ^ 32 + tid) ∈ keys m.allowed_pids := by
      rw [hp]
      exact hallowed
    rw [enter_allowed pid_tgid (some A) m hallowed, enter_allowed _ (some A) m hallowed2]

/-- Witness of C2: process 7 is allow-listed, the learned table is empty, and
after the connect to address 5 the lookup of 5 succeeds. -/
theorem C2_allowed_process_learns_witness :
    contains (enter_tcp_connect (7 * 2 ^ 32 + 3) (some 5) ⟨[], [(7, 1)]⟩).2.allowed_IPs 5 = true ∧
      enter_tcp_connect (current_pid (7 * 2 ^ 32 + 3) * 2 ^ 32 + 4) (some 5) ⟨[], [(7, 1)]⟩ =
        enter_tcp_connect (7 * 2 ^ 32 + 3) (some 5) ⟨[], [(7, 1)]⟩ :=
  have h := C2_allowed_process_learns ⟨[], [(7, 1)]⟩ (7 * 2 ^ 32 + 3) 5 (by norm_num) (by decide)
    (Or.inr (by decide))
  ⟨h.1, h.2 4 (by norm_num)⟩

/-- Claim C3: learning is idempotent.  For every state of the tables, every
allow-listed process and every destination address `A`, running
`enter_tcp_connect` for `A` `n ≥ 1` times in a row yields exactly the same
tables (same keys, same stored values) as running it once, and if the lookup
of `A` succeeds after the first run it succeeds after each of the runs. -/
theorem C3_learning_idempotent (m : Maps) (pid_tgid A n : Nat)
    (_hallowed : current_pid pid_tgid ∈ keys m.allowed_pids) (hn : 1 ≤ n) :
    enter_tcp_connect_n pid_tgid (some A) n m = (enter_tcp_connect pid_tgid (some A) m).2 ∧
      (contains (enter_tcp_connect pid_tgid (some A) m).2.allowed_IPs (A % 2 ^ 32) = true →
        ∀ k, 1 ≤ k → k ≤ n →
          contains (enter_tcp_connect_n pid_tgid (some A) k m).allowed_IPs (A % 2 ^ 32) = true) := by
  constructor
  · obtain ⟨j, rfl⟩ : ∃ j, n = j + 1 := ⟨n - 1, by omega⟩
    exact enter_n_succ pid_tgid (some A) j m
  · intro h k hk _
    obtain ⟨j, rfl⟩ : ∃ j, k = j + 1 := ⟨k - 1, by omega⟩
    rw [enter_n_succ]
    exact h

/-- Witness of C3: three connects of the allow-listed process 7 to address 5
leave the tables exactly as one connect does. -/
theorem C3_learning_idempotent_witness :
    enter_tcp_connect_n (7 * 2 ^ 32 + 3) (some 5) 3 ⟨[(9, 1)], [(7, 1)]⟩ =
        (enter_tcp_connect (7 * 2 ^ 32 + 3) (some 5) ⟨[(9, 1)], [(7, 1)]⟩).2 ∧
      contains (enter_tcp_connect_n (7 * 2 ^ 32 + 3) (some 5) 2
        ⟨[(9, 1)], [(7, 1)]⟩).allowed_IPs (5 % 2 ^ 32) = true :=
  have h := C3_learning_idempotent ⟨[(9, 1)], [(7, 1)]⟩ (7 * 2 ^ 32 + 3) 5 3 (by decide)
    (by decide)
  ⟨h.1, h.2 (by decide) 2 (by decide) (by decide)⟩

/-- Claim C4: the learned-address set only grows.  For every state of the
tables and every invocation of `enter_tcp_connect` (any process, any
destination read outcome, table full or not) every key of `allowed_IPs`
before the call is a key after it, and the same holds across every sequence
of observer invocations. -/
theorem C4_learned_keys_only_grow (m : Maps) (a : Nat) (ha : a ∈ keys m.allowed_IPs) :
    (∀ pid_tgid uaddr, a ∈ keys (enter_tcp_connect pid_tgid uaddr m).2.allowed_IPs) ∧
      ∀ calls, a ∈ keys (run_observer calls m).allowed_IPs :=
  ⟨fun pid_tgid uaddr => enter_keys_mono pid_tgid uaddr m a ha,
    fun calls => run_observer_keys_mono calls m a ha⟩

/-- Witness of C4: address 9 is learned and stays so. -/
theorem C4_learned_keys_only_grow_witness :
    9 ∈ keys (enter_tcp_connect (7 * 2 ^ 32 + 3) (some 5) ⟨[(9, 1)], [(7, 1)]⟩).2.allowed_IPs ∧
      9 ∈ keys (run_observer [(7 * 2 ^ 32 + 3, some 5), (7 * 2 ^ 32, none), (8 * 2 ^ 32, some 9)]
        ⟨[(9, 1)], [(7, 1)]⟩).allowed_IPs :=
  have h := C4_learned_keys_only_grow ⟨[(9, 1)], [(7, 1)]⟩ 9 (by decide)
  ⟨h.1 (7 * 2 ^ 32 + 3) (some 5),
    h.2 [(7 * 2 ^ 32 + 3, some 5), (7 * 2 ^ 32, none), (8 * 2 ^ 32, some 9)]⟩

/-- Claim C5: capacity errors are swallowed without damage.  When
`allowed_IPs` holds 512 entries and an allow-listed process connects to an
address `A` that is not among them, `enter_tcp_connect` returns 0 and leaves
the tables exactly as they were (the entry count stays 512); and from every
state with at most 512 entries, every sequence of observer invocations ends
in a state with at most 512 entries. -/
theorem C5_full_table_insert_swallowed (m : Maps) (pid_tgid A : Nat) (hA : A < 2 ^ 32)
    (hallowed : current_pid pid_tgid ∈ keys m.allowed_pids)
    (hfull : m.allowed_IPs.length = 512) (hnew : A ∉ keys m.allowed_IPs) :
    enter_tcp_connect pid_tgid (some A) m = (0, m) ∧
      (enter_tcp_connect pid_tgid (some A) m).2.allowed_IPs.length = 512 ∧
      ∀ (m0 : Maps) (calls : List (Nat × Option Nat)), m0.allowed_IPs.length ≤ 512 →
        (run_observer calls m0).allowed_IPs.length ≤ 512 := by
  have hd : (bpf_probe_read 0 (some A)).2 = A := by
    simp only [bpf_probe_read]
    exact Nat.mod_eq_of_lt hA
  have h1 : enter_tcp_connect pid_tgid (some A) m = (0, m) := by
    rw [enter_allowed pid_tgid (some A) m hallowed, hd, add_IP_full A m hfull hnew]
  refine ⟨h1, ?_, fun m0 calls h0 => run_observer_length_le calls m0 h0⟩
  rw [h1]
  exact hfull

/-- Witness of C5: the table holds the addresses 1 to 512 and the allow-listed
process 7 connects to address 1000. -/
theorem C5_full_table_insert_swallowed_witness :
    enter_tcp_connect (7 * 2 ^ 32 + 3) (some 1000) ⟨full_table, [(7, 1)]⟩ =
        (0, ⟨full_table, [(7, 1)]⟩) ∧
      (run_observer [(7 * 2 ^ 32 + 3, some 5), (7 * 2 ^ 32, some 6)]
        ⟨[(9, 1)], [(7, 1)]⟩).allowed_IPs.length ≤ 512 :=
  have h := C5_full_table_insert_swallowed ⟨full_table, [(7, 1)]⟩ (7 * 2 ^ 32 + 3) 1000
    (by norm_num) (by decide) (by simp [full_table])
    (by simp [full_table, keys])
  ⟨h.1, h.2.2 ⟨[(9, 1)], [(7, 1)]⟩ [(7 * 2 ^ 32 + 3, some 5), (7 * 2 ^ 32, some 6)] (by decide)⟩

/-- Counterexample to C6 as stated: process 7 is allow-listed, the learned
table is empty and the destination cannot be read; after `enter_tcp_connect`
the learned table is no longer the one before the call and address 0, which
was not permitted, is. -/
theorem C6_read_error_counterexample :
    (enter_tcp_connect (7 * 2 ^ 32 + 3) none ⟨[], [(7, 1)]⟩).2.allowed_IPs ≠ [] ∧
      contains [] 0 = false ∧
      contains (enter_tcp_connect (7 * 2 ^ 32 + 3) none ⟨[], [(7, 1)]⟩).2.allowed_IPs 0 = true := by
  decide

/-- Claim C6, amended: when the destination socket-address memory cannot be
read, `enter_tcp_connect` does exactly what it does for the readable
destination address 0 and returns 0: for a process that is not allow-listed
`allowed_IPs` is unchanged; for an allow-listed process address 0 is upserted
into `allowed_IPs`, so that a lookup of address 0 succeeds after the call
whenever address 0 was already a key or the table held fewer than 512
entries, and the table is unchanged when address 0 was not a key and the
table was full; in all cases the lookup result of every address other than 0
is what it was before the call. -/
theorem C6_read_error_acts_as_address_zero (m : Maps) (pid_tgid : Nat) :
    enter_tcp_connect pid_tgid none m = enter_tcp_connect pid_tgid (some 0) m ∧
      (enter_tcp_connect pid_tgid none m).1 = 0 ∧
      (current_pid pid_tgid ∉ keys m.allowed_pids →
        (enter_tcp_connect pid_tgid none m).2.allowed_IPs = m.allowed_IPs) ∧
      (current_pid pid_tgid ∈ keys m.allowed_pids →
        (enter_tcp_connect pid_tgid none m).2.allowed_IPs =
          (bpf_map_update_elem 512 m.allowed_IPs 0 1 BPF_ANY).2) ∧
      (current_pid pid_tgid ∈ keys m.allowed_pids →
        contains m.allowed_IPs 0 = true ∨ m.allowed_IPs.length < 512 →
        contains (enter_tcp_connect pid_tgid none m).2.allowed_IPs 0 = true) ∧
      (current_pid pid_tgid ∈ keys m.allowed_pids →
        contains m.allowed_IPs 0 = false → 512 ≤ m.allowed_IPs.length →
        (enter_tcp_connect pid_tgid none m).2.allowed_IPs = m.allowed_IPs) ∧
      ∀ a, a ≠ 0 →
        bpf_map_lookup_elem (enter_tcp_connect pid_tgid none m).2.allowed_IPs a =
          bpf_map_lookup_elem m.allowed_IPs a := by
  refine ⟨?_, enter_fst _ _ _, ?_, ?_, ?_, ?_, ?_⟩
  · simp [enter_tcp_connect, bpf_probe_read]
  · intro h
    rw [enter_not_allowed pid_tgid none m h]
  · intro h
    rw [enter_allowed pid_tgid none m h]
    rfl
  · intro h hroom
    rw [enter_allowed pid_tgid none m h, contains_iff_mem_keys]
    have hd : (bpf_probe_read 0 none).2 = 0 := rfl
    rw [hd]
    apply mem_keys_update_any
    rcases hroom with h0 | h0
    · exact Or.inl ((contains_iff_mem_keys _ _).mp h0)
    · exact Or.inr h0
  · intro h h0 hfull
    have hnew : (0 : Nat) ∉ keys m.allowed_IPs := by
      intro hmem
      rw [(contains_iff_mem_keys _ _).mpr hmem] at h0
      exact Bool.noConfusion h0
    have hd : (bpf_probe_read 0 none).2 = 0 := rfl
    rw [enter_allowed pid_tgid none m h, hd]
    simp only [add_IP_to_allowlist]
    have hfull2 : allowed_IPs_max_entries ≤ m.allowed_IPs.length := hfull
    rw [update_any, if_neg hnew, if_pos hfull2]
  · intro a ha
    by_cases h : current_pid pid_tgid ∈ keys m.allowed_pids
    · rw [enter_allowed pid_tgid none m h]
      exact lookup_update_any_ne _ _ _ _ _ ha
    · rw [enter_not_allowed pid_tgid none m h]

/-- Witness of the amended C6: for the process 8, which is not allow-listed,
an unreadable destination leaves the learned table `[(5, 1)]` as it is; for
the allow-listed process 7 address 0 is added to it and a lookup of address 0
succeeds afterwards, while the lookup of address 5 is what it was; on the full
table of the addresses 1 to 512 the call of process 7 changes nothing. -/
theorem C6_read_error_acts_as_address_zero_witness :
    (enter_tcp_connect (8 * 2 ^ 32) none ⟨[(5, 1)], [(7, 1)]⟩).2.allowed_IPs = [(5, 1)] ∧
      (enter_tcp_connect (7 * 2 ^ 32) none ⟨[(5, 1)], [(7, 1)]⟩).2.allowed_IPs =
        (bpf_map_update_elem 512 [(5, 1)] 0 1 BPF_ANY).2 ∧
      contains (enter_tcp_connect (7 * 2 ^ 32) none ⟨[(5, 1)], [(7, 1)]⟩).2.allowed_IPs 0 = true ∧
      (enter_tcp_connect (7 * 2 ^ 32) none ⟨full_table, [(7, 1)]⟩).2.allowed_IPs =
        (⟨full_table, [(7, 1)]⟩ : Maps).allowed_IPs ∧
      bpf_map_lookup_elem (enter_tcp_connect (7 * 2 ^ 32) none ⟨[(5, 1)], [(7, 1)]⟩).2.allowed_IPs 5 =
        bpf_map_lookup_elem [(5, 1)] 5 :=
  ⟨(C6_read_error_acts_as_address_zero ⟨[(5, 1)], [(7, 1)]⟩ (8 * 2 ^ 32)).2.2.1 (by decide),
    (C6_read_error_acts_as_address_zero ⟨[(5, 1)], [(7, 1)]⟩ (7 * 2 ^ 32)).2.2.2.1 (by decide),
    (C6_read_error_acts_as_address_zero ⟨[(5, 1)], [(7, 1)]⟩ (7 * 2 ^ 32)).2.2.2.2.1 (by decide)
      (Or.inr (by decide)),
    (C6_read_error_acts_as_address_zero ⟨full_table, [(7, 1)]⟩ (7 * 2 ^ 32)).2.2.2.2.2.1
      (by decide)
      (by
        have h : (0 : Nat) ∉ keys full_table := by simp [full_table, keys]
        cases hc : contains full_table 0
        · rfl
        · exact absurd ((contains_iff_mem_keys _ _).mp hc) h)
      (by simp [full_table]),
    (C6_read_error_acts_as_address_zero ⟨[(5, 1)], [(7, 1)]⟩ (7 * 2 ^ 32)).2.2.2.2.2.2 5
      (by decide)⟩

/-! ## The packet classifier: claims -/

/-- Claim C7: fragments are always dropped.  For every packet whose
link-layer protocol is IPv4 and whose IPv4 header has version 4 and a valid
header length, if the fragment-offset field is non-zero or the more-fragments
flag is set, the classifier returns the drop code 2, whatever the
LearnedAddress table holds (the destination address may be a learned one). -/
theorem C7_fragments_dropped (allowed_IPs : bpf_map) (data : List Nat) (eth : ethhdr)
    (iph : iphdr) (heth : parse_ethhdr data = some eth) (hproto : eth.h_proto = ETH_P_IP)
    (hiph : parse_iphdr data = some iph) (_hversion : iph.version = 4)
    (_hihl : valid_ihl data iph = true)
    (hfrag : iph.frag_off &&& IP_OFFSET ≠ 0 ∨ iph.frag_off &&& IP_MF ≠ 0) :
    classifier allowed_IPs data = 2 := by
  have hf : is_fragment iph = true := by
    simp only [is_fragment, Bool.or_eq_true, decide_eq_true_eq]
    exact hfrag
  have harp : ¬ ETH_P_IP = ETH_P_ARP := by decide
  unfold classifier
  simp only [heth, hiph, hproto, hf, if_true, if_false, ne_eq, not_true_eq_false]
  rw [if_neg harp]
  split_ifs <;> rfl

/-- Witness of C7: the packet of `TestDropFragmentedPacket`, whose destination
address 0 is in the LearnedAddress table, is dropped. -/
theorem C7_fragments_dropped_witness :
    parse_iphdr pkt_fragment = some ⟨4, 5, 0x3FFF, 0⟩ ∧
      contains [(0, 1)] 0 = true ∧ classifier [(0, 1)] pkt_fragment = 2 :=
  ⟨by decide, by decide,
    C7_fragments_dropped [(0, 1)] pkt_fragment ⟨ETH_P_IP⟩ ⟨4, 5, 0x3FFF, 0⟩ (by decide) rfl
      (by decide) rfl (by decide) (Or.inl (by decide))⟩

/-- Claim C8: fail-closed on non-IP.  For every packet whose link-layer
protocol field is neither IPv4 (`ETH_P_IP`) nor address resolution
(`ETH_P_ARP`), the classifier returns the drop code 2, for every payload and
every content of the LearnedAddress table. -/
theorem C8_non_ip_dropped (allowed_IPs : bpf_map) (data : List Nat) (eth : ethhdr)
    (heth : parse_ethhdr data = some eth) (hip : eth.h_proto ≠ ETH_P_IP)
    (harp : eth.h_proto ≠ ETH_P_ARP) : classifier allowed_IPs data = 2 := by
  unfold classifier
  simp only [heth, harp, hip, if_true, if_false, ne_eq, not_false_eq_true]
  rfl

/-- Witness of C8: the packet of `TestDropUnsupportedPackets` (ethertype
`ETH_P_LOOP`, zeroed IPv4 and TCP headers) is dropped. -/
theorem C8_non_ip_dropped_witness :
    parse_ethhdr pkt_loop = some ⟨ETH_P_LOOP⟩ ∧ classifier [(0, 1)] pkt_loop = 2 :=
  ⟨by decide,
    C8_non_ip_dropped [(0, 1)] pkt_loop ⟨ETH_P_LOOP⟩ (by decide) (by decide) (by decide)⟩

/-- Claim C9: ARP always passes.  For every packet whose link-layer protocol
field is address resolution (`ETH_P_ARP`), the classifier returns the pass
verdict, encoded as -1, for every payload and every content of the
LearnedAddress table, the empty table included. -/
theorem C9_arp_passes (allowed_IPs : bpf_map) (data : List Nat) (eth : ethhdr)
    (heth : parse_ethhdr data = some eth) (harp : eth.h_proto = ETH_P_ARP) :
    classifier allowed_IPs data = -1 := by
  unfold classifier
  simp only [heth, harp, if_true]
  rfl

/-- Witness of C9: the packet of `TestAllowArpPacket` (ethertype `ETH_P_ARP`,
zeroed IPv4 and TCP headers) passes with an empty LearnedAddress table. -/
theorem C9_arp_passes_witness :
    parse_ethhdr pkt_arp = some ⟨ETH_P_ARP⟩ ∧ classifier [] pkt_arp = -1 :=
  ⟨by decide, C9_arp_passes [] pkt_arp ⟨ETH_P_ARP⟩ (by decide) rfl⟩

/-! ## Event dispatch: claim -/

/-- Claim C10: event dispatch is filtered by the subscription mask.  For
every event header and every 64-bit events mask, if `evt->type & events` is
non-zero `ring_buf_cb` is one invocation of the saved handler (its return
value and its effect; the invocation counter goes up by exactly one), and
otherwise `ring_buf_cb` returns 0 without invoking the handler (state and
invocation counter unchanged); in particular the handler is never invoked
when `events = 0`. -/
theorem C10_dispatch_filtered_by_mask {σ : Type} (cb : ebpf_event_header → σ → Int × σ)
    (events : Nat) (evt : ebpf_event_header) (size : Nat) (s : σ) (calls : Nat)
    (htype : evt.type < 2 ^ 64) (hevents : events < 2 ^ 64) :
    (evt.type &&& events ≠ 0 →
        ring_buf_cb ⟨cb, events⟩ evt size s = cb evt s ∧
        ring_buf_cb ⟨counted cb, events⟩ evt size (calls, s) =
          ((cb evt s).1, (calls + 1, (cb evt s).2))) ∧
      (evt.type &&& events = 0 →
        ring_buf_cb ⟨cb, events⟩ evt size s = (0, s) ∧
        ring_buf_cb ⟨counted cb, events⟩ evt size (calls, s) = (0, (calls, s))) ∧
      (events = 0 →
        ring_buf_cb ⟨cb, events⟩ evt size s = (0, s) ∧
        ring_buf_cb ⟨counted cb, events⟩ evt size (calls, s) = (0, (calls, s))) := by
  have h1 : evt.type % 2 ^ 64 = evt.type := Nat.mod_eq_of_lt htype
  have h2 : events % 2 ^ 64 = events := Nat.mod_eq_of_lt hevents
  refine ⟨fun h => ?_, fun h => ?_, fun h => ?_⟩
  · simp only [ring_buf_cb, h1, h2, ne_eq, h, not_false_eq_true, if_true, counted, and_self]
  · simp only [ring_buf_cb, h1, h2, ne_eq, h, not_true_eq_false, if_false, and_self]
  · subst h
    simp only [ring_buf_cb, Nat.zero_mod, Nat.and_zero, ne_eq, not_true_eq_false, if_false,
      and_self]

/-- Witness of C10: a handler that returns 5 and adds the event type to its
state, mask `0b0110`: an event of type `0b0100` is dispatched once, an event
of type `0b1000` is not dispatched. -/
theorem C10_dispatch_filtered_by_mask_witness :
    ring_buf_cb ⟨counted (fun evt (s : Nat) => (5, s + evt.type)), 6⟩ ⟨0, 4⟩ 16 (0, 10) =
        (5, (1, 14)) ∧
      ring_buf_cb ⟨counted (fun evt (s : Nat) => (5, s + evt.type)), 6⟩ ⟨0, 8⟩ 16 (0, 10) =
        (0, (0, 10)) :=
  ⟨((C10_dispatch_filtered_by_mask (fun evt (s : Nat) => (5, s + evt.type)) 6 ⟨0, 4⟩ 16 10 0
      (by norm_num) (by norm_num)).1 (by decide)).2,
    ((C10_dispatch_filtered_by_mask (fun evt (s : Nat) => (5, s + evt.type)) 6 ⟨0, 8⟩ 16 10 0
      (by norm_num) (by norm_num)).2.1 (by decide)).2⟩

end HostIsolation
